import Mathlib

/-!
Verification of the markdown-tool validator (src/md_validator.py): a shallow
embedding of the structural validator (MarkdownValidator.validate_structure and
its helpers), the link checks (MarkdownValidator.validate_links,
LinkValidator._check_allowed_target, _check_bidirectional, _perform_all_checks,
_check_link_is_allowed) and the exit-code policy (MarkdownValidator.verify_project).

Modelling conventions:
- Python `re` patterns are modelled as their language: a `Regex` carries the
  pattern source text and a decidable language `lang : String → Bool`;
  `re.fullmatch(p, s)` is `lang s`, and `pattern.match(s)` (anchored at the
  start, may end anywhere) is "some prefix of `s` is in the language".
- Filesystem paths are absolute component lists (`List String`); `Path.resolve`
  is component normalization (symlinks out of scope); `Path.exists` and the
  per-directory links.yaml loader are explicit function parameters.
- Machine integers are `Nat` (no overflow is reachable: all ints are indices,
  counters and line numbers).
- Python list indexing `tokens[i]` on indices that the control flow keeps in
  bounds is `List.getD i default`.
- String primitives (split, strip, take, startswith, replace of a single
  character, "/".join) are implemented over the character lists with the same
  semantics as the Python originals, so that concrete runs reduce in the
  kernel.
- Exceptions that the source catches and turns into `continue` / `return False`
  (FileNotFoundError around `Path.resolve`) do not arise in the path model,
  where `resolve` is total.
-/

set_option linter.unusedVariables false

/-- Error severity levels (class ErrorLevel in md_validator.py). The string
from spec.yaml is parsed (upper-cased) at load time. -/
inductive ErrorLevel where
  | FATAL
  | WARN
  | INFO
deriving DecidableEq

/-- Per-file validation results (dataclass ValidationResult): ordered error and
warning message lists. -/
structure ValidationResult where
  filename : String
  errors : List String := []
  warnings : List String := []
deriving DecidableEq

/-- `ValidationResult.has_errors` property. -/
def ValidationResult.has_errors (r : ValidationResult) : Bool :=
  r.errors.length > 0

/-- `ValidationResult.has_warnings` property. -/
def ValidationResult.has_warnings (r : ValidationResult) : Bool :=
  r.warnings.length > 0

/-- A markdown-it token, with the fields md_validator.py reads: `type`, `tag`
(heading tag such as "h1"), `info` (fence language), `content`, the `href`
attribute of link_open tokens, and the source map (`hasMap` is whether
`token.map` is not None; `mapStart`/`mapEnd` are `map[0]`/`map[1]`). -/
structure Token where
  type : String
  tag : String := ""
  info : String := ""
  content : String := ""
  href : String := ""
  hasMap : Bool := true
  mapStart : Nat := 0
  mapEnd : Nat := 0
deriving DecidableEq, Inhabited

/-- A compiled Python regular expression, modelled by its language plus the
pattern source text (used in diagnostic messages). `lang s` holds exactly when
`re.fullmatch(pattern, s)` succeeds. -/
structure Regex where
  src : String
  lang : String → Bool

/-- The first `n` characters of a string (the semantics of `s.take n`),
implemented over the character list so that concrete instances evaluate in the
kernel. -/
def strTake (s : String) (n : Nat) : String :=
  String.mk (s.data.take n)

/-- All characters of a string except the first `n` (the semantics of
`s.drop n`), over the character list. -/
def strDrop (s : String) (n : Nat) : String :=
  String.mk (s.data.drop n)

/-- Whether `pre` is a prefix of `s` (the semantics of `s.startswith(pre)`),
over the character lists. -/
def strStartsWith (s pre : String) : Bool :=
  pre.data.isPrefixOf s.data

/-- ASCII whitespace, as stripped by Python str.strip() on the inputs in
scope. -/
def isWS (c : Char) : Bool :=
  c == ' ' || c == '\t' || c == '\n' || c == '\r'

/-- Python `s.strip()`: remove leading and trailing whitespace. -/
def stripStr (s : String) : String :=
  String.mk (((s.data.dropWhile isWS).reverse.dropWhile isWS).reverse)

/-- Splitting a character list at a separator character (the semantics of
`s.split(sep)` / `s.splitOn sep` for a one-character separator). -/
def splitCharAux (sep : Char) : List Char → List Char → List String
  | [], cur => [String.mk cur.reverse]
  | c :: rest, cur =>
    if c = sep then String.mk cur.reverse :: splitCharAux sep rest []
    else splitCharAux sep rest (c :: cur)

/-- Splitting a string at a separator character. -/
def splitChar (sep : Char) (s : String) : List String :=
  splitCharAux sep s.data []

/-- Joining path components with "/" (the semantics of
`String.intercalate "/"`). -/
def joinSlash : List String → String
  | [] => ""
  | [x] => x
  | x :: xs => x ++ "/" ++ joinSlash xs

/-- Python `pattern.match(s)`: the match is anchored at the start of `s` and may
end anywhere, so it succeeds iff some prefix of `s` is in the language. -/
def re_match (r : Regex) (s : String) : Bool :=
  (List.range (s.length + 1)).any (fun n => r.lang (strTake s n))

/-- One step of a spec.yaml sequence: required token `type`, optional heading
`level`, optional fence `info`, optional `content_regex`. -/
structure Step where
  type : String
  level : Option Nat := none
  info : Option String := none
  content_regex : Option Regex := none
deriving Inhabited

/-- One block of spec.yaml's `structure` list, after load_spec applied the
defaults (min_occurrences 1, max_occurrences None, error_level FATAL). -/
structure Block where
  sequence : List Step
  min_occurrences : Nat := 1
  max_occurrences : Option Nat := none
  error_level : ErrorLevel := ErrorLevel.FATAL

/-- Python f-string interpolation of a value that may be None
(validate_structure interpolates `error`, which is None for an empty
sequence). -/
def optStr : Option String → String
  | some s => s
  | none => "None"

/-- MarkdownValidator._describe_step. -/
def describeStep (step : Step) : String :=
  let d :=
    if step.type == "heading_open" && step.level.isSome then
      "heading (H" ++ toString (step.level.getD 0) ++ ")"
    else if step.type == "paragraph_open" then "paragraph"
    else if step.type == "fence" && step.info.isSome then
      "code block (`" ++ step.info.getD "" ++ "`)"
    else step.type
  match step.content_regex with
  | some r => d ++ " with content matching regex '" ++ r.src ++ "'"
  | none => d

/-- The `line_num` local of validate_sequence_step:
`token.map[0] + 1 if token.map else 'N/A'`. -/
def lineNumStr (t : Token) : String :=
  if t.hasMap then toString (t.mapStart + 1) else "N/A"

/-- The `content_to_check` local of validate_sequence_step: for heading/paragraph
opens, the stripped content of the following inline token (or "" when there is
none); otherwise the token's own content. -/
def content_to_check (tokens : List Token) (token_index : Nat) (token : Token) : String :=
  if token.type == "heading_open" || token.type == "paragraph_open" then
    if token_index + 1 < tokens.length then
      if (tokens.getD (token_index + 1) default).type == "inline" then
        stripStr ((tokens.getD (token_index + 1) default).content)
      else ""
    else ""
  else token.content

/-- MarkdownValidator.validate_sequence_step: validates one step against the
token at `token_index`, returning (success, tokens_consumed, error_message). -/
def validate_sequence_step (tokens : List Token) (token_index : Nat) (step : Step) :
    Bool × Nat × String :=
  if token_index ≥ tokens.length then
    (false, 0, "Expected " ++ describeStep step ++ ", but reached the end of the file.")
  else
    let token := tokens.getD token_index default
    let ln := lineNumStr token
    if token.type != step.type then
      (false, 0, "line " ++ ln ++ ": Expected " ++ describeStep step ++
        ", but found a '" ++ token.type ++ "' instead.")
    else if step.level.isSome && token.type == "heading_open"
        && token.tag != "h" ++ toString (step.level.getD 0) then
      (false, 0, "line " ++ ln ++ ": Expected heading level " ++ toString (step.level.getD 0) ++
        " (h" ++ toString (step.level.getD 0) ++ "), but found level " ++ strDrop token.tag 1 ++
        " (" ++ token.tag ++ ").")
    else if step.info.isSome && token.type == "fence" && token.info != step.info.getD "" then
      (false, 0, "line " ++ ln ++ ": Expected code block language '" ++ step.info.getD "" ++
        "', but found '" ++ token.info ++ "'.")
    else
      match step.content_regex with
      | some r =>
        if r.lang (content_to_check tokens token_index token) then (true, 1, "")
        else (false, 0, "line " ++ ln ++
          ": Content does not fully match the expected pattern: " ++ r.src)
      | none => (true, 1, "")

/-- Body of the inner while-loop of validate_block that skips the paired inline
and close tokens after a heading/paragraph open. The loop advances `i` by one
each iteration and exits once `i` reaches the end, so `tokens.length - i` fuel
is exactly enough; at fuel 0 the loop condition `i < len(tokens)` is false. -/
def skipInlineGo (tokens : List Token) : Nat → Nat → Nat
  | 0, i => i
  | fuel + 1, i =>
    if i < tokens.length then
      let t := tokens.getD i default
      if t.type == "inline" || t.type == "heading_close" || t.type == "paragraph_close" then
        skipInlineGo tokens fuel (i + 1)
      else i
    else i

/-- The inner while-loop of validate_block that skips the paired inline and
close tokens after a heading/paragraph open. -/
def skipInline (tokens : List Token) (i : Nat) : Nat :=
  skipInlineGo tokens (tokens.length - i) i

/-- Body of the inner while-loop of validate_block that skips a whole nested
list item, tracking open/close depth (same fuel discipline as skipInlineGo).
Stops right after the matching list_item_close: the source decrements the depth
and breaks one past the close when it reaches 0. -/
def skipListItemGo (tokens : List Token) : Nat → Nat → Nat → Nat
  | 0, i, _ => i
  | fuel + 1, i, depth =>
    if i < tokens.length then
      let t := tokens.getD i default
      if t.type == "list_item_open" then
        skipListItemGo tokens fuel (i + 1) (depth + 1)
      else if t.type == "list_item_close" then
        if depth = 1 then i + 1
        else skipListItemGo tokens fuel (i + 1) (depth - 1)
      else skipListItemGo tokens fuel (i + 1) depth
    else i

/-- The inner while-loop of validate_block that skips a whole nested list item,
tracking open/close depth; stops right after the matching list_item_close. -/
def skipListItem (tokens : List Token) (i depth : Nat) : Nat :=
  skipListItemGo tokens (tokens.length - i) i depth

/-- The for-loop body of MarkdownValidator.validate_block, recursing over the
remaining steps. `sequence` is the whole block sequence (for `sequence[0]` in
error messages), `swl` is `started_with_list_item`, `token_index` the index the
block attempt started at, `ci` the current index. Returns the final current
index (the start index on failure, making consumed = 0) and the error. -/
def validateBlockGo (tokens : List Token) (sequence : List Step) (swl : Bool)
    (token_index : Nat) (steps : List Step) (step_idx : Nat) (ci : Nat) :
    Nat × Option String :=
  match steps with
  | [] => (ci, none)
  | step :: rest =>
    let r := validate_sequence_step tokens ci step
    if r.1 then
      let ci2 := ci + r.2.1
      let t := tokens.getD (ci2 - 1) default
      let ci3 :=
        if t.type == "heading_open" || t.type == "paragraph_open"
            || t.type == "list_item_open" then
          if swl && (step_idx + 1 = sequence.length) then skipListItem tokens ci2 1
          else if !swl || (step_idx + 1 = sequence.length) then skipInline tokens ci2
          else ci2
        else ci2
      validateBlockGo tokens sequence swl token_index rest (step_idx + 1) ci3
    else
      (token_index, some ("In block starting with '" ++ describeStep (sequence.headD default) ++
        "', step " ++ toString (step_idx + 1) ++ " failed: " ++ r.2.2))

/-- MarkdownValidator.validate_block: validates a block's step sequence starting
at `token_index`, returning (tokens_consumed, error_message); consumed is 0 on
failure. -/
def validate_block (tokens : List Token) (token_index : Nat) (block : Block) :
    Nat × Option String :=
  let swl := block.sequence.any (fun s => s.type == "list_item_open")
  let g := validateBlockGo tokens block.sequence swl token_index block.sequence 0 token_index
  (g.1 - token_index, g.2)

/-- Outcome of the inner while-loop of validate_structure for one block:
either an early `return` from validate_structure (`ret`), or fall through to
the post-loop occurrence check (`cont`) with the cursor and match count. -/
inductive BlockLoopOut where
  | ret (ok : Bool) (res : ValidationResult)
  | cont (ti : Nat) (matchCount : Nat) (res : ValidationResult)
deriving DecidableEq

/-- Body of the inner `while token_index < len(tokens)` loop of
MarkdownValidator.validate_structure for one block. A successful block match
advances the cursor by at least one token, so `tokens.length - token_index`
fuel is enough; at fuel 0 the loop condition is false. -/
def blockLoopGo (fname : String) (tokens : List Token) (block : Block) :
    Nat → Nat → Nat → ValidationResult → BlockLoopOut
  | 0, token_index, matchCount, result => BlockLoopOut.cont token_index matchCount result
  | fuel + 1, token_index, matchCount, result =>
    if token_index < tokens.length then
      let r := validate_block tokens token_index block
      if 0 < r.1 then
        match block.max_occurrences with
        | some m =>
          if matchCount + 1 ≥ m then BlockLoopOut.cont (token_index + r.1) (matchCount + 1) result
          else blockLoopGo fname tokens block fuel (token_index + r.1) (matchCount + 1) result
        | none => blockLoopGo fname tokens block fuel (token_index + r.1) (matchCount + 1) result
      else
        if matchCount < block.min_occurrences then
          let message := fname ++ ": " ++ optStr r.2
          if block.error_level = ErrorLevel.FATAL then
            BlockLoopOut.ret false { result with errors := result.errors ++ [message] }
          else
            BlockLoopOut.ret true { result with warnings := result.warnings ++ [message] }
        else BlockLoopOut.cont token_index matchCount result
    else BlockLoopOut.cont token_index matchCount result

/-- The inner `while token_index < len(tokens)` loop of
MarkdownValidator.validate_structure for one block. -/
def blockLoop (fname : String) (tokens : List Token) (block : Block)
    (token_index matchCount : Nat) (result : ValidationResult) : BlockLoopOut :=
  blockLoopGo fname tokens block (tokens.length - token_index) token_index matchCount result

/-- The `last_line` local of validate_structure's occurrence message:
`tokens[-1].map[1] if tokens and tokens[-1].map else 'EOF'`. -/
def lastLineStr (tokens : List Token) : String :=
  match tokens.getLast? with
  | some t => if t.hasMap then toString t.mapEnd else "EOF"
  | none => "EOF"

/-- Outcome of one iteration of validate_structure's for-loop over blocks:
`halt` is an early return from validate_structure, `next` continues with the
next block at cursor `ti`. -/
inductive BlockStep where
  | halt (ok : Bool) (res : ValidationResult)
  | next (ti : Nat) (res : ValidationResult)
deriving DecidableEq

/-- One iteration of validate_structure's for-loop: the inner matching loop for
`block` followed by the post-loop `matches < min_occurrences` check with its
duplicate-message guards. -/
def processBlock (fname : String) (tokens : List Token) (block : Block)
    (token_index : Nat) (result : ValidationResult) : BlockStep :=
  match blockLoop fname tokens block token_index 0 result with
  | BlockLoopOut.ret ok res => BlockStep.halt ok res
  | BlockLoopOut.cont ti matchCount res =>
    if matchCount < block.min_occurrences then
      let message := fname ++ ": line " ++ (lastLineStr tokens ++
        ": Expected the block starting with '" ++ describeStep (block.sequence.headD default) ++
        "' to appear at least " ++ toString block.min_occurrences ++
        " time(s), but it appeared " ++ toString matchCount ++ " time(s).")
      if block.error_level = ErrorLevel.FATAL ∧ message ∉ res.errors then
        BlockStep.halt false { res with errors := res.errors ++ [message] }
      else if block.error_level = ErrorLevel.WARN ∧ message ∉ res.warnings then
        BlockStep.next ti { res with warnings := res.warnings ++ [message] }
      else BlockStep.next ti res
    else BlockStep.next ti res

/-- The for-loop of MarkdownValidator.validate_structure over the spec's
blocks. -/
def structLoop (fname : String) (tokens : List Token) (blocks : List Block)
    (token_index : Nat) (result : ValidationResult) : Bool × ValidationResult :=
  match blocks with
  | [] => (true, result)
  | b :: rest =>
    match processBlock fname tokens b token_index result with
    | BlockStep.halt ok res => (ok, res)
    | BlockStep.next ti res => structLoop fname tokens rest ti res

/-- MarkdownValidator.validate_structure, for a loaded spec with block list
`blocks` (when no spec is loaded the source returns True immediately).
`fname` is `filepath.name`. Returns the bool result and the updated
ValidationResult. -/
def validate_structure (fname : String) (blocks : List Block) (tokens : List Token)
    (result : ValidationResult) : Bool × ValidationResult :=
  structLoop fname tokens blocks 0 result

/-- Components of a relative path string: split on "/", dropping empty
components and "." (pathlib PurePath parsing keeps ".."). -/
def pathParts (s : String) : List String :=
  (splitChar '/' s).filter (fun c => !(c == "") && !(c == "."))

/-- Python `s.replace('\\', '/')` on a link string. -/
def normSlash (s : String) : String :=
  String.mk (s.data.map (fun c => if c = '\x5c' then '/' else c))

/-- `Path.resolve()` on an absolute path given as a component list: "." is
dropped and ".." pops the previous component (at the root it is a no-op, as in
POSIX). Symlinks are out of scope. -/
def resolvePath (comps : List String) : List String :=
  comps.foldl (fun acc c =>
    if c == "." then acc
    else if c == ".." then acc.dropLast
    else acc ++ [c]) []

/-- `Path.name`: the final component, "" for an empty path. -/
def pathName (comps : List String) : String :=
  (comps.getLast?).getD ""

/-- `str(path)` for an absolute component-list path. -/
def absPathStr (comps : List String) : String :=
  "/" ++ joinSlash comps

/-- `Path(s).as_posix()` for a relative path string: pathlib drops empty and
"." components ("." alone stays "."). -/
def pathAsPosix (s : String) : String :=
  let parts := pathParts s
  if parts.isEmpty then "." else joinSlash parts

/-- Length of the common prefix of two component lists (os.path.commonprefix
on split paths, as os.path.relpath uses it). -/
def commonPrefixLen : List String -> List String -> Nat
  | a :: as, b :: bs => if a == b then 1 + commonPrefixLen as bs else 0
  | _, _ => 0

/-- `os.path.relpath(path, start)` on absolute component lists: ".." segments
up to the common prefix, then the remainder of `path`; "." when equal. -/
def relpath (path start : List String) : String :=
  let common := commonPrefixLen path start
  let comps := List.replicate (start.length - common) ".." ++ path.drop common
  if comps.isEmpty then "." else joinSlash comps

/-- One `allowed_targets` rule of links.yaml: `{directory, filename_regex}`. -/
structure AllowedTargetRule where
  directory : String
  filename_regex : Regex

/-- A parsed links.yaml as the validators read it: an `Option` field is `none`
when the key is absent. `established_links` and `required_links` are
association lists (Python dicts keyed by filename / file path string). -/
structure LinksYaml where
  allowed_targets : Option (List AllowedTargetRule) := none
  established_links : Option (List (String × List String)) := none
  required_links : Option (List (String × List String)) := none

/-- MarkdownValidator.extract_links_with_location: relative links (href not
starting with http://, https://, mailto: or #) of link_open tokens, with
1-based line numbers (0 when the token has no map). -/
def extract_links_with_location (tokens : List Token) : List (String × Nat) :=
  tokens.filterMap (fun t =>
    if t.type == "link_open" then
      let url := t.href
      if strStartsWith url "http://" || strStartsWith url "https://"
          || strStartsWith url "mailto:" || strStartsWith url "#" then none
      else some (url, if t.hasMap then t.mapStart + 1 else 0)
    else none)

/-- The body of the inner `for target in self.links_spec['allowed_targets']`
loop of MarkdownValidator.validate_links: `link_valid` after the loop. The
target-directory comparison resolves `filepath.parent / link`, and the filename
test is `pattern.match` (prefix semantics) on the unresolved `link_path.name`. -/
def linkValidCheck (parentDir : List String) (link : String)
    (targets : List AllowedTargetRule) : Bool :=
  targets.any (fun target =>
    (resolvePath (parentDir ++ pathParts link)).dropLast ==
        resolvePath (parentDir ++ pathParts target.directory)
      && re_match target.filename_regex (pathName (parentDir ++ pathParts link)))

/-- MarkdownValidator.validate_links. `fname` is `filepath.name`, `fpathStr` is
`str(filepath)` (the key into `required_links`), `parentDir` is
`filepath.parent` as an absolute component list, `spec` is the loaded
links.yaml (`none` when no links.yaml is loaded, in which case the source
returns True at once). Returns the bool result and the updated result. -/
def validate_links (fname fpathStr : String) (parentDir : List String)
    (spec : Option LinksYaml) (tokens : List Token) (result : ValidationResult) :
    Bool × ValidationResult :=
  match spec with
  | none => (true, result)
  | some ls =>
    let links_with_locations := extract_links_with_location tokens
    let all_links := links_with_locations.map (fun p => p.1)
    let result :=
      match ls.allowed_targets with
      | none => result
      | some targets =>
        links_with_locations.foldl (fun res p =>
          if linkValidCheck parentDir p.1 targets then res
          else
            { res with warnings := res.warnings ++
                [fname ++ ": line " ++ toString p.2 ++ ": Invalid link target '" ++ p.1 ++ "'"] })
          result
    let result :=
      match ls.required_links with
      | none => result
      | some required_links_map =>
        match required_links_map.lookup fpathStr with
        | none => result
        | some required =>
          required.foldl (fun res req_link =>
            if all_links.contains req_link then res
            else
              { res with warnings := res.warnings ++
                  [fname ++ ": line " ++ lastLineStr tokens ++
                    ": Missing required link to '" ++ req_link ++ "'"] })
            result
    (true, result)

/-- LinkValidator._check_allowed_target: a link is allowed iff some rule's
resolved directory equals the link's resolved parent directory and the
filename fully matches (`re.fullmatch`) the rule's regex. -/
def check_allowed_target (target_link : String) (source_dir : List String)
    (rules : List AllowedTargetRule) : Bool :=
  let target_abs := resolvePath (source_dir ++ pathParts (normSlash target_link))
  rules.any (fun rule =>
    target_abs.dropLast == resolvePath (source_dir ++ pathParts rule.directory)
      && rule.filename_regex.lang (pathName target_abs))

/-- The `_check_link_is_allowed` helper of the `link` command: same rule test
as `check_allowed_target`, except an empty rule list allows every link. -/
def check_link_is_allowed (target_link : String) (source_dir : List String)
    (rules : List AllowedTargetRule) : Bool :=
  if rules.isEmpty then true
  else
    let target_abs := resolvePath (source_dir ++ pathParts (normSlash target_link))
    rules.any (fun rule =>
      target_abs.dropLast == resolvePath (source_dir ++ pathParts rule.directory)
        && rule.filename_regex.lang (pathName target_abs))

/-- LinkValidator._check_bidirectional. `loadYaml` models
`_load_links_yaml(dir)` (None when the directory has no links.yaml or it does
not parse). Returns the (status, message) pair. -/
def check_bidirectional (loadYaml : List String -> Option LinksYaml)
    (target_link source_file : String) (source_dir : List String) : String × String :=
  let target_path := resolvePath (source_dir ++ pathParts (normSlash target_link))
  match loadYaml target_path.dropLast with
  | none => ("INFO", "Target directory has no links.yaml or established_links")
  | some y =>
    match y.established_links with
    | none => ("INFO", "Target directory has no links.yaml or established_links")
    | some est =>
      let source_path := resolvePath (source_dir ++ pathParts source_file)
      let relative_back_path := pathAsPosix (relpath source_path target_path.dropLast)
      let established_in_target :=
        ((est.lookup (pathName target_path)).getD []).map (fun p => pathAsPosix (normSlash p))
      if established_in_target.contains relative_back_path then
        ("PASS", "Bidirectional link confirmed")
      else
        ("FAIL", "No reverse link found in " ++ absPathStr (target_path.dropLast ++ ["links.yaml"]))

/-- The three per-edge results and this edge's contribution to the ERRORS exit
flag, as recorded by LinkValidator._perform_all_checks for one
(source_file, target_link) pair. -/
structure EdgeOutcome where
  allowedRes : String × String
  existsRes : String × String
  bidiRes : String × String
  errFlag : Bool
deriving DecidableEq

/-- The body of LinkValidator._perform_all_checks for a single established
link: allowed-target check, file-existence check (`fileExists` models
`Path.exists` on the unresolved joined path), and - only when the target
exists - the bidirectional check. `errFlag` is whether any of the three
checks added LinkExitCode.ERRORS. -/
def perform_edge_check (loadYaml : List String -> Option LinksYaml)
    (fileExists : List String -> Bool) (directory : List String)
    (allowed_targets : List AllowedTargetRule) (source_file target_link : String) :
    EdgeOutcome :=
  let allowedRes :=
    if !(check_allowed_target target_link directory allowed_targets) then
      (("FAIL", "Link does not match any rule.") : String × String)
    else ("PASS", "")
  let flag1 := allowedRes.1 == "FAIL"
  let target_path := directory ++ pathParts (normSlash target_link)
  if !(fileExists target_path) then
    { allowedRes := allowedRes,
      existsRes := ("FAIL", "File not found at '" ++ absPathStr (resolvePath target_path) ++ "'"),
      bidiRes := ("SKIPPED", "Target file does not exist."),
      errFlag := true }
  else
    let b := check_bidirectional loadYaml target_link source_file directory
    { allowedRes := allowedRes,
      existsRes := ("PASS", ""),
      bidiRes := b,
      errFlag := flag1 || b.1 == "FAIL" }

/-- The counting loop of MarkdownValidator.verify_project: how many per-file
results have errors, and how many have warnings. -/
def verify_project_counts (results : List ValidationResult) : Nat × Nat :=
  results.foldl (fun acc r =>
    ((if r.has_errors then acc.1 + 1 else acc.1),
     (if r.has_warnings then acc.2 + 1 else acc.2))) (0, 0)

/-- The exit-code policy of MarkdownValidator.verify_project: 2 when a file has
errors, else 1 when a file has warnings, else 0. -/
def verify_project_exit (results : List ValidationResult) : Nat :=
  let c := verify_project_counts results
  if c.1 > 0 then 2 else if c.2 > 0 then 1 else 0

/-- The rule used in claim C3's counterexample: its regex language contains
exactly the string "guide" (the Python pattern "guide"). -/
def guideRule : AllowedTargetRule :=
  { directory := "docs", filename_regex := { src := "guide", lang := fun s => s == "guide" } }

/-- The token and step of claim C6's witness: the pattern language contains
only "ab", a proper prefix of the fence content "abc". -/
def fenceStepA : Step :=
  { type := "fence", content_regex := some { src := "ab", lang := fun s => s == "ab" } }

/-- The block of claim C9's witness: no minimum, maximum one occurrence. -/
def c9block : Block :=
  { sequence := [{ type := "heading_open" }], min_occurrences := 0, max_occurrences := some 1 }

/-- Tokens of claim C1's counterexample: a single paragraph. -/
def c1tokens : List Token :=
  [{ type := "paragraph_open", tag := "p", mapStart := 0, mapEnd := 1 },
   { type := "inline", content := "Hello", mapStart := 0, mapEnd := 1 },
   { type := "paragraph_close", tag := "p", hasMap := false }]

/-- A WARN-severity block requiring an H1 heading. -/
def c1warnBlock : Block :=
  { sequence := [{ type := "heading_open", level := some 1 }],
    error_level := ErrorLevel.WARN }

/-- A FATAL-severity block requiring a fenced code block. -/
def c1fatalBlock : Block :=
  { sequence := [{ type := "fence", info := some "x" }] }

/-- Tokens for the max-cap scenarios: one matching H1 heading (three tokens,
counting the skipped inline and close) followed by a paragraph open. -/
def c1capTokens : List Token :=
  [{ type := "heading_open", tag := "h1", mapStart := 0, mapEnd := 1 },
   { type := "inline", content := "T", mapStart := 0, mapEnd := 1 },
   { type := "heading_close", tag := "h1", hasMap := false },
   { type := "paragraph_open", tag := "p", mapStart := 2, mapEnd := 3 }]

/-- A WARN block whose max_occurrences cap (1) is below its min_occurrences
(2): the matching loop stops at the cap mid-stream and falls through to the
post-loop occurrence check. -/
def c1capBlock : Block :=
  { sequence := [{ type := "heading_open", level := some 1 }],
    min_occurrences := 2, max_occurrences := some 1,
    error_level := ErrorLevel.WARN }

/-- A block with max_occurrences = 0 (and no minimum), for claim C9's
counterexample. -/
def c9zeroBlock : Block :=
  { sequence := [{ type := "heading_open", level := some 1 }],
    min_occurrences := 0, max_occurrences := some 0 }

/-- The links.yaml of claim C8's counterexample: the same required link listed
twice. -/
def c8spec : LinksYaml :=
  { required_links := some [("doc.md", ["x.md", "x.md"])] }

/-! Helper lemmas shared by several claims. -/

/-- A fold whose step never touches the error list leaves it unchanged. -/
theorem foldl_errors_eq {α : Type} (f : ValidationResult → α → ValidationResult)
    (hf : ∀ res x, (f res x).errors = res.errors) (l : List α) :
    ∀ res, (l.foldl f res).errors = res.errors := by
  induction l with
  | nil => intro res; rfl
  | cons x xs ih => intro res; simp only [List.foldl_cons]; rw [ih, hf]

/-- validate_links never changes the error list and always returns True. -/
theorem validate_links_errors (fname fpathStr : String) (parentDir : List String)
    (spec : Option LinksYaml) (tokens : List Token) (result : ValidationResult) :
    (validate_links fname fpathStr parentDir spec tokens result).1 = true ∧
    (validate_links fname fpathStr parentDir spec tokens result).2.errors = result.errors := by
  cases spec with
  | none => exact ⟨rfl, rfl⟩
  | some ls =>
    refine ⟨rfl, ?_⟩
    have hA : ∀ res : ValidationResult,
        ((match ls.allowed_targets with
          | none => res
          | some targets =>
            (extract_links_with_location tokens).foldl (fun res (p : String × Nat) =>
              if linkValidCheck parentDir p.1 targets then res
              else
                { res with warnings := res.warnings ++
                    [fname ++ ": line " ++ toString p.2 ++ ": Invalid link target '" ++ p.1 ++ "'"] })
              res) : ValidationResult).errors = res.errors := by
      intro res
      cases ls.allowed_targets
      · rfl
      · exact foldl_errors_eq _ (fun res x => by split <;> rfl) _ _
    have hB : ∀ res : ValidationResult,
        ((match ls.required_links with
          | none => res
          | some required_links_map =>
            match required_links_map.lookup fpathStr with
            | none => res
            | some required =>
              required.foldl (fun res req_link =>
                if ((extract_links_with_location tokens).map (fun p => p.1)).contains req_link then
                  res
                else
                  { res with warnings := res.warnings ++
                      [fname ++ ": line " ++ lastLineStr tokens ++
                        ": Missing required link to '" ++ req_link ++ "'"] })
                res) : ValidationResult).errors = res.errors := by
      intro res
      cases ls.required_links with
      | none => rfl
      | some required_links_map =>
        dsimp only
        cases List.lookup fpathStr required_links_map
        · rfl
        · exact foldl_errors_eq _ (fun res x => by split <;> rfl) _ _
    exact (hB _).trans (hA _)

/-- The counting fold of verify_project counts the files with errors and the
files with warnings. -/
theorem verify_counts_fold (l : List ValidationResult) : ∀ a b : Nat,
    l.foldl (fun acc r =>
        ((if r.has_errors then acc.1 + 1 else acc.1),
         (if r.has_warnings then acc.2 + 1 else acc.2))) (a, b)
      = (a + l.countP (fun r => r.has_errors), b + l.countP (fun r => r.has_warnings)) := by
  induction l with
  | nil => intro a b; simp
  | cons x xs ih =>
    intro a b
    simp only [List.foldl_cons, ih, List.countP_cons]
    by_cases hce : x.has_errors = true <;> by_cases hcw : x.has_warnings = true <;>
      simp [hce, hcw, Prod.ext_iff] <;> omega

/-- verify_project_counts in closed form. -/
theorem verify_counts_spec (results : List ValidationResult) :
    verify_project_counts results =
      (results.countP (fun r => r.has_errors), results.countP (fun r => r.has_warnings)) := by
  have h := verify_counts_fold results 0 0
  simpa [verify_project_counts] using h

/-- Claim C5: for every run of the structural checker over a set of documents,
the process exit code is 2 iff at least one document's ValidationResult has
errors, 1 iff no document has errors but at least one has warnings, and 0 iff
no document has errors or warnings (MarkdownValidator.verify_project). -/
theorem claim_C5 (results : List ValidationResult) :
    (verify_project_exit results = 2 ↔ ∃ r ∈ results, r.has_errors = true) ∧
    (verify_project_exit results = 1 ↔
      ((∀ r ∈ results, r.has_errors = false) ∧ ∃ r ∈ results, r.has_warnings = true)) ∧
    (verify_project_exit results = 0 ↔
      ((∀ r ∈ results, r.has_errors = false) ∧ ∀ r ∈ results, r.has_warnings = false)) := by
  have hz : ∀ p : ValidationResult → Bool,
      results.countP p = 0 ↔ ∀ r ∈ results, p r = false := by
    intro p
    rw [List.countP_eq_zero]
    constructor
    · intro h r hr; have := h r hr; simpa using this
    · intro h r hr; simp [h r hr]
  have hp : ∀ p : ValidationResult → Bool,
      0 < results.countP p ↔ ∃ r ∈ results, p r = true := by
    intro p; exact List.countP_pos_iff
  unfold verify_project_exit
  rw [verify_counts_spec]
  dsimp only
  by_cases h1 : results.countP (fun r => r.has_errors) > 0
  · have he := (hp (fun r => r.has_errors)).mp h1
    rw [if_pos h1]
    refine ⟨by simpa using he, ?_, ?_⟩
    · constructor
      · intro h; omega
      · rintro ⟨hall, -⟩
        obtain ⟨r, hr, hrt⟩ := he
        rw [hall r hr] at hrt; simp at hrt
    · constructor
      · intro h; omega
      · rintro ⟨hall, -⟩
        obtain ⟨r, hr, hrt⟩ := he
        rw [hall r hr] at hrt; simp at hrt
  · have he : ∀ r ∈ results, r.has_errors = false :=
      (hz (fun r => r.has_errors)).mp (by omega)
    rw [if_neg h1]
    by_cases h2 : results.countP (fun r => r.has_warnings) > 0
    · have hw := (hp (fun r => r.has_warnings)).mp h2
      rw [if_pos h2]
      refine ⟨?_, ?_, ?_⟩
      · constructor
        · intro h; omega
        · rintro ⟨r, hr, hrt⟩; rw [he r hr] at hrt; simp at hrt
      · exact ⟨fun _ => ⟨he, hw⟩, fun _ => rfl⟩
      · constructor
        · intro h; omega
        · rintro ⟨-, hall⟩
          obtain ⟨r, hr, hrt⟩ := hw
          rw [hall r hr] at hrt; simp at hrt
    · have hw : ∀ r ∈ results, r.has_warnings = false :=
        (hz (fun r => r.has_warnings)).mp (by omega)
      rw [if_neg h2]
      refine ⟨?_, ?_, ⟨fun _ => ⟨he, hw⟩, fun _ => rfl⟩⟩
      · constructor
        · intro h; omega
        · rintro ⟨r, hr, hrt⟩; rw [he r hr] at hrt; simp at hrt
      · constructor
        · intro h; omega
        · rintro ⟨-, r, hr, hrt⟩; rw [hw r hr] at hrt; simp at hrt

/-- Claim C10: validate_links records its violations only in the warnings list
(errors are unchanged) and always returns True; a document whose only
violations are link violations can raise the structural checker's exit code at
most to 1, never to 2. -/
theorem claim_C10 :
    (∀ (fname fpathStr : String) (parentDir : List String) (spec : Option LinksYaml)
        (tokens : List Token) (result : ValidationResult),
      (validate_links fname fpathStr parentDir spec tokens result).1 = true ∧
      (validate_links fname fpathStr parentDir spec tokens result).2.errors = result.errors) ∧
    (∀ results : List ValidationResult,
      (∀ r ∈ results, r.errors = []) → verify_project_exit results ≤ 1) := by
  constructor
  · intro fname fpathStr parentDir spec tokens result
    exact validate_links_errors fname fpathStr parentDir spec tokens result
  · intro results hall
    have hz : results.countP (fun r => r.has_errors) = 0 := by
      rw [List.countP_eq_zero]
      intro r hr
      simp [ValidationResult.has_errors, hall r hr]
    unfold verify_project_exit
    rw [verify_counts_spec]
    dsimp only
    rw [hz]
    split
    · omega
    · split <;> omega

/-- Witness for claim C10's second conjunct at a concrete input. -/
theorem claim_C10_witness :
    verify_project_exit [{ filename := "a.md", warnings := ["w"] }] ≤ 1 :=
  claim_C10.2 [{ filename := "a.md", warnings := ["w"] }]
    (by intro r hr; simp at hr; rw [hr])

/-- With an empty allowed_targets list, the per-link loop of validate_links
appends one warning for every extracted link. -/
theorem empty_rules_fold (fname : String) (parentDir : List String)
    (lwl : List (String × Nat)) : ∀ res : ValidationResult,
    (lwl.foldl (fun res (p : String × Nat) =>
      if linkValidCheck parentDir p.1 [] then res
      else
        { res with warnings := res.warnings ++
            [fname ++ ": line " ++ toString p.2 ++ ": Invalid link target '" ++ p.1 ++ "'"] })
      res).warnings
      = res.warnings ++ lwl.map (fun p =>
          fname ++ ": line " ++ toString p.2 ++ ": Invalid link target '" ++ p.1 ++ "'") := by
  induction lwl with
  | nil => intro res; simp
  | cons x xs ih =>
    intro res
    have hf : linkValidCheck parentDir x.1 [] = false := rfl
    simp only [List.foldl_cons, List.map_cons, hf, Bool.false_eq_true, if_false]
    rw [ih]
    simp

/-- Claim C2 counterexample: with an empty rule list, the link command's
pre-check judges a link allowed (fail open), while the verify-link checker
judges the same link disallowed; so not every checked link is judged
disallowed under an empty/absent allowed_targets list. -/
theorem claim_C2_counterexample :
    check_link_is_allowed "x.md" [] [] = true ∧ check_allowed_target "x.md" [] [] = false :=
  ⟨rfl, rfl⟩

/-- Claim C2 as amended: the verify-link checker (LinkValidator's
_check_allowed_target) fails closed on an empty rule list, and validate_links
with an explicitly empty allowed_targets list warns on every extracted link;
but the link command's pre-check (_check_link_is_allowed) returns True for
every link when the rule list is empty (fail open), and an absent
allowed_targets key disables the verify-doc link check entirely - with no
required_links either, validate_links returns True with the result
untouched. -/
theorem claim_C2_amended :
    (∀ (t : String) (d : List String), check_allowed_target t d [] = false) ∧
    (∀ (t : String) (d : List String), check_link_is_allowed t d [] = true) ∧
    (∀ (fname fpathStr : String) (parentDir : List String) (tokens : List Token)
        (result : ValidationResult) (ls : LinksYaml),
      ls.allowed_targets = some [] → ls.required_links = none →
      (validate_links fname fpathStr parentDir (some ls) tokens result).2.warnings =
        result.warnings ++ (extract_links_with_location tokens).map (fun p =>
          fname ++ ": line " ++ toString p.2 ++ ": Invalid link target '" ++ p.1 ++ "'")) ∧
    (∀ (fname fpathStr : String) (parentDir : List String) (tokens : List Token)
        (result : ValidationResult) (ls : LinksYaml),
      ls.allowed_targets = none → ls.required_links = none →
      validate_links fname fpathStr parentDir (some ls) tokens result = (true, result)) := by
  refine ⟨fun t d => rfl, fun t d => rfl, ?_, ?_⟩
  · intro fname fpathStr parentDir tokens result ls hat hrl
    unfold validate_links
    simp only [hat, hrl]
    exact empty_rules_fold fname parentDir (extract_links_with_location tokens) result
  · intro fname fpathStr parentDir tokens result ls hat hrl
    unfold validate_links
    simp only [hat, hrl]

/-- Witness for claim C2's amended validate_links conjuncts at concrete
inputs: an explicitly empty allowed_targets list flags the link, while an
absent allowed_targets key leaves the result untouched. -/
theorem claim_C2_witness :
    ((validate_links "a.md" "/r/a.md" ["r"]
        (some { allowed_targets := some [] }) [{ type := "link_open", href := "b.md" }]
        { filename := "a.md" }).2.warnings =
      ({ filename := "a.md" } : ValidationResult).warnings ++
        (extract_links_with_location [{ type := "link_open", href := "b.md" }]).map (fun p =>
          "a.md" ++ ": line " ++ toString p.2 ++ ": Invalid link target '" ++ p.1 ++ "'")) ∧
    (validate_links "a.md" "/r/a.md" ["r"] (some {})
        [{ type := "link_open", href := "b.md" }] { filename := "a.md" } =
      (true, { filename := "a.md" })) :=
  ⟨claim_C2_amended.2.2.1 "a.md" "/r/a.md" ["r"] [{ type := "link_open", href := "b.md" }]
    { filename := "a.md" } { allowed_targets := some [] } rfl rfl,
   claim_C2_amended.2.2.2 "a.md" "/r/a.md" ["r"] [{ type := "link_open", href := "b.md" }]
    { filename := "a.md" } {} rfl rfl⟩


/-- Claim C3 counterexample: in the verify-doc link check (validate_links),
a regex matching only a proper prefix of the target filename does permit the
link ('guide' matches only a proper prefix of 'guide.md', the rule directory
matches, and the per-rule check accepts), contradicting the claimed full-match
semantics for that checker. -/
theorem claim_C3_counterexample :
    linkValidCheck ["r"] "docs/guide.md" [guideRule] = true ∧
    guideRule.filename_regex.lang (pathName (["r"] ++ pathParts "docs/guide.md")) = false ∧
    (resolvePath (["r"] ++ pathParts "docs/guide.md")).dropLast =
      resolvePath (["r"] ++ pathParts guideRule.directory) := by
  refine ⟨by decide, by decide, by decide⟩

/-- Claim C3 as amended: the verify-link checker (_check_allowed_target)
permits a link iff some rule's resolved directory equals the link's resolved
parent and the filename fully matches the rule's regex; the verify-doc link
check (validate_links) instead uses re.match, permitting the link already when
the regex matches some prefix of the filename. -/
theorem claim_C3_amended :
    (∀ (t : String) (d : List String) (rules : List AllowedTargetRule),
      check_allowed_target t d rules = true ↔
        ∃ rule ∈ rules,
          (resolvePath (d ++ pathParts (normSlash t))).dropLast =
            resolvePath (d ++ pathParts rule.directory) ∧
          rule.filename_regex.lang (pathName (resolvePath (d ++ pathParts (normSlash t)))) = true) ∧
    (∀ (parentDir : List String) (link : String) (targets : List AllowedTargetRule),
      linkValidCheck parentDir link targets = true ↔
        ∃ rule ∈ targets,
          (resolvePath (parentDir ++ pathParts link)).dropLast =
            resolvePath (parentDir ++ pathParts rule.directory) ∧
          ∃ n ≤ (pathName (parentDir ++ pathParts link)).length,
            rule.filename_regex.lang (strTake (pathName (parentDir ++ pathParts link)) n) = true) := by
  constructor
  · intro t d rules
    simp [check_allowed_target, List.any_eq_true, Bool.and_eq_true, beq_iff_eq]
  · intro parentDir link targets
    simp [linkValidCheck, re_match, List.any_eq_true, Bool.and_eq_true, beq_iff_eq,
      List.mem_range, Nat.lt_succ_iff]

/-- Witness for claim C3's amended statement at a concrete input. -/
theorem claim_C3_witness :
    check_allowed_target "docs/a.md" ["r"]
      [{ directory := "docs", filename_regex := { src := ".*", lang := fun _ => true } }] = true :=
  (claim_C3_amended.1 "docs/a.md" ["r"]
    [{ directory := "docs", filename_regex := { src := ".*", lang := fun _ => true } }]).mpr
    ⟨_, List.mem_singleton.mpr rfl, by decide, rfl⟩

/-- Claim C6: a step carrying a content_regex succeeds only when the associated
content fully matches the regex (validate_sequence_step uses re.fullmatch): if
the step succeeds the content is in the regex language, and if the content is
not in the language (for instance when the regex matches only a proper prefix
or substring) the step fails. -/
theorem claim_C6 (tokens : List Token) (i : Nat) (step : Step) (r : Regex)
    (hr : step.content_regex = some r) :
    ((validate_sequence_step tokens i step).1 = true →
      r.lang (content_to_check tokens i (tokens.getD i default)) = true) ∧
    (r.lang (content_to_check tokens i (tokens.getD i default)) = false →
      (validate_sequence_step tokens i step).1 = false) := by
  unfold validate_sequence_step
  simp only [hr]
  refine ⟨?_, ?_⟩ <;> intro h <;> split_ifs at * <;> simp_all


/-- Witness for claim C6 at a concrete input: content "abc" is not in the
language, so the step fails. -/
theorem claim_C6_witness :
    (validate_sequence_step [{ type := "fence", content := "abc" }] 0 fenceStepA).1 = false :=
  (claim_C6 [{ type := "fence", content := "abc" }] 0 fenceStepA
    { src := "ab", lang := fun s => s == "ab" } rfl).2 (by decide)

/-- The inline-skip loop never moves the cursor backward. -/
theorem skipInlineGo_ge (tokens : List Token) :
    ∀ fuel i, i ≤ skipInlineGo tokens fuel i := by
  intro fuel
  induction fuel with
  | zero => intro i; exact Nat.le_refl i
  | succ fuel ih =>
    intro i
    simp only [skipInlineGo]
    split
    · split
      · exact Nat.le_trans (Nat.le_succ i) (ih (i + 1))
      · exact Nat.le_refl i
    · exact Nat.le_refl i

/-- skipInline never moves the cursor backward. -/
theorem skipInline_ge (tokens : List Token) (i : Nat) : i ≤ skipInline tokens i :=
  skipInlineGo_ge tokens _ i

/-- The list-item-skip loop never moves the cursor backward. -/
theorem skipListItemGo_ge (tokens : List Token) :
    ∀ fuel i depth, i ≤ skipListItemGo tokens fuel i depth := by
  intro fuel
  induction fuel with
  | zero => intro i depth; exact Nat.le_refl i
  | succ fuel ih =>
    intro i depth
    simp only [skipListItemGo]
    split
    · split
      · exact Nat.le_trans (Nat.le_succ i) (ih (i + 1) (depth + 1))
      · split
        · split
          · exact Nat.le_succ i
          · exact Nat.le_trans (Nat.le_succ i) (ih (i + 1) (depth - 1))
        · exact Nat.le_trans (Nat.le_succ i) (ih (i + 1) depth)
    · exact Nat.le_refl i

/-- skipListItem never moves the cursor backward. -/
theorem skipListItem_ge (tokens : List Token) (i depth : Nat) : i ≤ skipListItem tokens i depth :=
  skipListItemGo_ge tokens _ i depth

/-- On step failure, the step loop of validate_block reports the block's start
index (so validate_block's consumed count is 0). -/
theorem validateBlockGo_some_fst (tokens : List Token) (seq : List Step) (swl : Bool)
    (ti0 : Nat) :
    ∀ steps idx ci, (validateBlockGo tokens seq swl ti0 steps idx ci).2.isSome = true →
      (validateBlockGo tokens seq swl ti0 steps idx ci).1 = ti0 := by
  intro steps
  induction steps with
  | nil => intro idx ci h; simp [validateBlockGo] at h
  | cons step rest ih =>
    intro idx ci h
    simp only [validateBlockGo] at h ⊢
    split at h <;> rename_i hcond
    · try rw [if_pos hcond]
      exact ih _ _ h
    · try rw [if_neg hcond]

/-- On success, the step loop of validate_block never moves the cursor
backward. -/
theorem validateBlockGo_none_ge (tokens : List Token) (seq : List Step) (swl : Bool)
    (ti0 : Nat) :
    ∀ steps idx ci, (validateBlockGo tokens seq swl ti0 steps idx ci).2 = none →
      ci ≤ (validateBlockGo tokens seq swl ti0 steps idx ci).1 := by
  intro steps
  induction steps with
  | nil => intro idx ci h; simp [validateBlockGo]
  | cons step rest ih =>
    intro idx ci h
    simp only [validateBlockGo] at h ⊢
    split at h <;> rename_i hcond
    · try rw [if_pos hcond]
      refine Nat.le_trans ?_ (ih _ _ h)
      have h2 : ci ≤ ci + (validate_sequence_step tokens ci step).2.1 := Nat.le_add_right _ _
      split
      · split
        · exact Nat.le_trans h2 (skipListItem_ge _ _ _)
        · split
          · exact Nat.le_trans h2 (skipInline_ge _ _)
          · exact h2
      · exact h2
    · simp at h

/-- The inner matching loop of validate_structure: a fall-through to the
post-loop occurrence check leaves the accumulated result untouched, and the
cursor and the match count never decrease. -/
theorem blockLoopGo_cont (fname : String) (tokens : List Token) (block : Block) :
    ∀ fuel ti k res ti' k' res',
      blockLoopGo fname tokens block fuel ti k res = BlockLoopOut.cont ti' k' res' →
      ti ≤ ti' ∧ k ≤ k' ∧ res' = res := by
  intro fuel
  induction fuel with
  | zero =>
    intro ti k res ti' k' res' h
    rw [blockLoopGo] at h
    cases h
    exact ⟨Nat.le_refl _, Nat.le_refl _, rfl⟩
  | succ fuel ih =>
    intro ti k res ti' k' res' h
    simp only [blockLoopGo] at h
    split at h
    · split at h
      · split at h
        · split at h
          · cases h
            exact ⟨Nat.le_add_right _ _, Nat.le_succ _, rfl⟩
          · obtain ⟨h1, h2, h3⟩ := ih _ _ _ _ _ _ h
            exact ⟨Nat.le_trans (Nat.le_add_right _ _) h1, Nat.le_trans (Nat.le_succ _) h2, h3⟩
        · obtain ⟨h1, h2, h3⟩ := ih _ _ _ _ _ _ h
          exact ⟨Nat.le_trans (Nat.le_add_right _ _) h1, Nat.le_trans (Nat.le_succ _) h2, h3⟩
      · split at h
        · split at h <;> simp at h
        · cases h
          exact ⟨Nat.le_refl _, Nat.le_refl _, rfl⟩
    · cases h
      exact ⟨Nat.le_refl _, Nat.le_refl _, rfl⟩

/-- With max_occurrences = m, the match count of the inner loop never exceeds
m once it starts below m. -/
theorem blockLoopGo_max (fname : String) (tokens : List Token) (block : Block) (m : Nat)
    (hmax : block.max_occurrences = some m) :
    ∀ fuel ti k res ti' k' res', k < m →
      blockLoopGo fname tokens block fuel ti k res = BlockLoopOut.cont ti' k' res' →
      k' ≤ m := by
  intro fuel
  induction fuel with
  | zero =>
    intro ti k res ti' k' res' hk h
    rw [blockLoopGo] at h
    cases h
    omega
  | succ fuel ih =>
    intro ti k res ti' k' res' hk h
    simp only [blockLoopGo, hmax] at h
    split at h
    · split at h
      · split at h <;> rename_i hge
        · cases h; omega
        · exact ih _ _ _ _ _ _ (by omega) h
      · split at h
        · split at h <;> simp at h
        · cases h; omega
    · cases h; omega

/-- With min_occurrences = 0, the inner loop never returns early from
validate_structure. -/
theorem blockLoopGo_min0 (fname : String) (tokens : List Token) (block : Block)
    (hmin : block.min_occurrences = 0) :
    ∀ fuel ti k res, ∃ ti' k',
      blockLoopGo fname tokens block fuel ti k res = BlockLoopOut.cont ti' k' res := by
  intro fuel
  induction fuel with
  | zero => intro ti k res; exact ⟨ti, k, rfl⟩
  | succ fuel ih =>
    intro ti k res
    simp only [blockLoopGo]
    split
    · split
      · split
        · split
          · exact ⟨_, _, rfl⟩
          · exact ih _ _ _
        · exact ih _ _ _
      · split
        · rename_i hlt
          rw [hmin] at hlt
          omega
        · exact ⟨_, _, rfl⟩
    · exact ⟨_, _, rfl⟩

/-- Claim C7: the token cursor of structural validation is monotonically
non-decreasing. A failed block attempt reports zero tokens consumed
(validate_block returns 0 on failure), the step loop of a successful block
attempt never moves its cursor backward, and across the repeated block
attempts of validate_structure the cursor never decreases. -/
theorem claim_C7 :
    (∀ (tokens : List Token) (ti : Nat) (b : Block),
      (validate_block tokens ti b).2.isSome = true → (validate_block tokens ti b).1 = 0) ∧
    (∀ (tokens : List Token) (seq : List Step) (swl : Bool) (ti0 : Nat) (steps : List Step)
        (idx ci : Nat),
      (validateBlockGo tokens seq swl ti0 steps idx ci).2 = none →
      ci ≤ (validateBlockGo tokens seq swl ti0 steps idx ci).1) ∧
    (∀ (fname : String) (tokens : List Token) (b : Block) (ti k : Nat)
        (res : ValidationResult) (ti' k' : Nat) (res' : ValidationResult),
      blockLoop fname tokens b ti k res = BlockLoopOut.cont ti' k' res' → ti ≤ ti') := by
  refine ⟨?_, ?_, ?_⟩
  · intro tokens ti b h
    unfold validate_block at h ⊢
    dsimp only at h ⊢
    rw [validateBlockGo_some_fst _ _ _ _ _ _ _ h]
    exact Nat.sub_self ti
  · intro tokens seq swl ti0 steps idx ci h
    exact validateBlockGo_none_ge tokens seq swl ti0 steps idx ci h
  · intro fname tokens b ti k res ti' k' res' h
    unfold blockLoop at h
    exact (blockLoopGo_cont fname tokens b _ ti k res ti' k' res' h).1

/-- Witness for claim C7 at concrete inputs. -/
theorem claim_C7_witness :
    (validate_block [{ type := "paragraph_open" }] 0
        { sequence := [{ type := "heading_open" }] }).1 = 0 ∧
    (0 : Nat) ≤ (validateBlockGo [] [] false 0 [] 0 0).1 ∧
    (0 : Nat) ≤ 0 :=
  ⟨claim_C7.1 [{ type := "paragraph_open" }] 0 { sequence := [{ type := "heading_open" }] }
      (by decide),
   claim_C7.2.1 [] [] false 0 [] 0 0 rfl,
   claim_C7.2.2 "f" [] { sequence := [] } 0 0 { filename := "f" } 0 0 { filename := "f" } rfl⟩

/-- Claim C9 counterexample: with max_occurrences = 0, the cap is checked only
after a match is counted (the source tests matches >= max_occur after the
increment), so one occurrence is still matched and its tokens consumed: on a
stream holding one matching heading, the loop returns match count 1 > 0 with
the cursor advanced from 0 to 3, contradicting the claim's stop-at-m and
leave-unconsumed assertions at m = 0. -/
theorem claim_C9_counterexample :
    blockLoop "f.md" c1capTokens c9zeroBlock 0 0 { filename := "f.md" } =
      BlockLoopOut.cont 3 1 { filename := "f.md" } ∧
    c9zeroBlock.max_occurrences = some 0 := by
  exact ⟨by decide, rfl⟩

/-- Claim C9 as amended: for a block with a finite max_occurrences m of at
least 1, the matching loop stops as soon as m matches are counted (the count
never exceeds m) and emits nothing on the fall-through path; exceeding the
maximum is never itself a diagnostic (with no minimum constraint, the block
never produces any diagnostic and never halts validation); subsequent blocks
resume exactly at the cursor the loop stopped at, so unmatched occurrences
stay available to them. (With max_occurrences 0 the cap only takes effect
after one match has been counted and consumed.) -/
theorem claim_C9 (fname : String) (tokens : List Token) (block : Block) (m : Nat)
    (hmax : block.max_occurrences = some m) (hm : 0 < m) :
    (∀ (ti : Nat) (res : ValidationResult) (ti' k : Nat) (res' : ValidationResult),
      blockLoop fname tokens block ti 0 res = BlockLoopOut.cont ti' k res' →
      k ≤ m ∧ res' = res) ∧
    (block.min_occurrences = 0 → ∀ (ti : Nat) (res : ValidationResult),
      ∃ ti', processBlock fname tokens block ti res = BlockStep.next ti' res) ∧
    (∀ (rest : List Block) (ti : Nat) (res : ValidationResult) (ti' : Nat)
        (res'' : ValidationResult),
      processBlock fname tokens block ti res = BlockStep.next ti' res'' →
      structLoop fname tokens (block :: rest) ti res = structLoop fname tokens rest ti' res'') := by
  refine ⟨?_, ?_, ?_⟩
  · intro ti res ti' k res' h
    unfold blockLoop at h
    exact ⟨blockLoopGo_max fname tokens block m hmax _ ti 0 res ti' k res' hm h,
      (blockLoopGo_cont fname tokens block _ ti 0 res ti' k res' h).2.2⟩
  · intro hmin ti res
    obtain ⟨ti', k', hgo⟩ :=
      blockLoopGo_min0 fname tokens block hmin (tokens.length - ti) ti 0 res
    refine ⟨ti', ?_⟩
    unfold processBlock blockLoop
    simp only [hgo]
    rw [if_neg (by rw [hmin]; omega)]
  · intro rest ti res ti' res'' h
    simp [structLoop, h]


/-- Witness for claim C9 at a concrete input. -/
theorem claim_C9_witness :
    ∃ ti', processBlock "f.md" [] c9block 0 { filename := "f.md" } =
      BlockStep.next ti' { filename := "f.md" } :=
  (claim_C9 "f.md" [] c9block 1 rfl (by decide)).2.1 rfl 0 { filename := "f.md" }




/-- Claim C1 counterexample: with a WARN block failing mid-stream followed by a
FATAL block that can never match, validate_structure returns True with only the
WARN diagnostic and no errors - the subsequent FATAL block is never evaluated
(running it alone on the same tokens does produce an error). -/
theorem claim_C1_counterexample :
    (validate_structure "f.md" [c1warnBlock, c1fatalBlock] c1tokens { filename := "f.md" }).1
        = true ∧
    (validate_structure "f.md" [c1warnBlock, c1fatalBlock] c1tokens
        { filename := "f.md" }).2.errors = [] ∧
    (validate_structure "f.md" [c1warnBlock, c1fatalBlock] c1tokens
        { filename := "f.md" }).2.warnings.length = 1 ∧
    (validate_structure "f.md" [c1fatalBlock] c1tokens { filename := "f.md" }).2.errors ≠ [] := by
  refine ⟨by decide, by decide, by decide, by decide⟩

/-- The inner loop outcome when a block-match attempt fails at a cursor that
still has tokens left, with the match count still below min_occurrences: an
early return carrying the diagnostic (for any match count reached so far). -/
theorem blockLoop_fail_min (fname : String) (tokens : List Token) (b : Block) (ti k : Nat)
    (res : ValidationResult) (hlt : ti < tokens.length)
    (hc : (validate_block tokens ti b).1 = 0) (hk : k < b.min_occurrences) :
    blockLoop fname tokens b ti k res =
      (if b.error_level = ErrorLevel.FATAL then
        BlockLoopOut.ret false { res with errors := res.errors ++
          [fname ++ ": " ++ optStr (validate_block tokens ti b).2] }
      else
        BlockLoopOut.ret true { res with warnings := res.warnings ++
          [fname ++ ": " ++ optStr (validate_block tokens ti b).2] }) := by
  unfold blockLoop
  obtain ⟨f, hf⟩ : ∃ f, tokens.length - ti = f + 1 := ⟨tokens.length - ti - 1, by omega⟩
  rw [hf]
  simp only [blockLoopGo, if_pos hlt, hc, lt_self_iff_false, if_false, if_pos hk]

/-- Claim C1 as amended: when a block-match attempt fails (validate_block
consumes zero tokens) at a cursor where tokens remain and the occurrence count
is still below min_occurrences, validate_structure returns immediately for
BOTH severities, recording the diagnostic and evaluating no subsequent Block
(True for WARN, False for FATAL); any early return of the matching loop cuts
off all remaining Blocks. A WARN Block's occurrence shortfall lets validation
proceed to the subsequent Blocks only through the post-loop occurrence check,
reached when the matching loop falls through - because the token stream is
exhausted or because a finite max_occurrences cap stopped the loop (possibly
mid-stream) - in which case the occurrence warning is recorded (if new) and
the remaining Blocks are evaluated from the stopped cursor. -/
theorem claim_C1_amended :
    (∀ (fname : String) (tokens : List Token) (b : Block) (ti k : Nat)
        (res : ValidationResult),
      ti < tokens.length →
      (validate_block tokens ti b).1 = 0 →
      k < b.min_occurrences →
      blockLoop fname tokens b ti k res =
        (if b.error_level = ErrorLevel.FATAL then
          BlockLoopOut.ret false { res with errors := res.errors ++
            [fname ++ ": " ++ optStr (validate_block tokens ti b).2] }
        else
          BlockLoopOut.ret true { res with warnings := res.warnings ++
            [fname ++ ": " ++ optStr (validate_block tokens ti b).2] })) ∧
    (∀ (fname : String) (tokens : List Token) (b : Block) (rest : List Block) (ti : Nat)
        (res : ValidationResult) (ok : Bool) (res' : ValidationResult),
      blockLoop fname tokens b ti 0 res = BlockLoopOut.ret ok res' →
      structLoop fname tokens (b :: rest) ti res = (ok, res')) ∧
    (∀ (fname : String) (tokens : List Token) (b : Block) (rest : List Block)
        (ti ti' k : Nat) (res : ValidationResult),
      blockLoop fname tokens b ti 0 res = BlockLoopOut.cont ti' k res →
      k < b.min_occurrences →
      b.error_level = ErrorLevel.WARN →
      (fname ++ ": line " ++ (lastLineStr tokens ++
        ": Expected the block starting with '" ++ describeStep (b.sequence.headD default) ++
        "' to appear at least " ++ toString b.min_occurrences ++
        " time(s), but it appeared " ++ toString k ++ " time(s).")) ∉ res.warnings →
      structLoop fname tokens (b :: rest) ti res =
        structLoop fname tokens rest ti' { res with warnings := res.warnings ++
          [fname ++ ": line " ++ (lastLineStr tokens ++
            ": Expected the block starting with '" ++ describeStep (b.sequence.headD default) ++
            "' to appear at least " ++ toString b.min_occurrences ++
            " time(s), but it appeared " ++ toString k ++ " time(s).")] }) := by
  refine ⟨?_, ?_, ?_⟩
  · intro fname tokens b ti k res hlt hc hk
    exact blockLoop_fail_min fname tokens b ti k res hlt hc hk
  · intro fname tokens b rest ti res ok res' h
    simp only [structLoop, processBlock, h]
  · intro fname tokens b rest ti ti' k res h hk hlvl hnotin
    simp only [structLoop, processBlock, h]
    rw [if_pos hk]
    rw [if_neg (by simp [hlvl]), if_pos ⟨hlvl, hnotin⟩]

/-- Witness for claim C1's amended statement at concrete inputs: a WARN block
failing on the first token of a non-empty stream halts validation with just
that warning (the FATAL block after it is never reached), while a WARN block
stopped mid-stream by its max_occurrences cap records its occurrence warning
and validation proceeds to the next block. -/
theorem claim_C1_witness :
    (structLoop "f.md" c1tokens (c1warnBlock :: [c1fatalBlock]) 0 { filename := "f.md" } =
      (true, { ({ filename := "f.md" } : ValidationResult) with warnings :=
          ({ filename := "f.md" } : ValidationResult).warnings ++
            ["f.md" ++ ": " ++ optStr (validate_block c1tokens 0 c1warnBlock).2] })) ∧
    (structLoop "f.md" c1capTokens (c1capBlock :: [c1fatalBlock]) 0 { filename := "f.md" } =
      structLoop "f.md" c1capTokens [c1fatalBlock] 3
        { ({ filename := "f.md" } : ValidationResult) with warnings :=
            ({ filename := "f.md" } : ValidationResult).warnings ++
              ["f.md" ++ ": line " ++ (lastLineStr c1capTokens ++
                ": Expected the block starting with '" ++
                describeStep (c1capBlock.sequence.headD default) ++
                "' to appear at least " ++ toString c1capBlock.min_occurrences ++
                " time(s), but it appeared " ++ toString 1 ++ " time(s).")] }) :=
  ⟨claim_C1_amended.2.1 "f.md" c1tokens c1warnBlock [c1fatalBlock] 0 { filename := "f.md" }
      true _ (by decide),
   claim_C1_amended.2.2 "f.md" c1capTokens c1capBlock [c1fatalBlock] 0 3 1
      { filename := "f.md" } (by decide) (by decide) rfl (by decide)⟩

/-- resolvePath distributes over append as a fold continuation. -/
theorem resolvePath_append (xs ys : List String) :
    resolvePath (xs ++ ys) = ys.foldl (fun acc c =>
      if c == "." then acc
      else if c == ".." then acc.dropLast
      else acc ++ [c]) (resolvePath xs) := by
  unfold resolvePath
  rw [List.foldl_append]

/-- Resolving one ordinary trailing component appends it. -/
theorem resolvePath_push (xs : List String) (c : String)
    (hc1 : c ≠ ".") (hc2 : c ≠ "..") :
    resolvePath (xs ++ [c]) = resolvePath xs ++ [c] := by
  rw [resolvePath_append]
  simp [hc1, hc2]

/-- Resolving a trailing ".." pops the last resolved component. -/
theorem resolvePath_pop (xs : List String) :
    resolvePath (xs ++ [".."]) = (resolvePath xs).dropLast := by
  rw [resolvePath_append]
  simp

/-- A common prefix contributes its length to commonPrefixLen. -/
theorem commonPrefixLen_same (q xs ys : List String) :
    commonPrefixLen (q ++ xs) (q ++ ys) = q.length + commonPrefixLen xs ys := by
  induction q with
  | nil => simp
  | cons c q ih =>
    simp only [List.cons_append, commonPrefixLen, List.length_cons, List.append_eq]
    rw [if_pos (beq_self_eq_true c), ih]
    omega

/-- The path facts of claim C4's scenario: source document a.md in directory
A (below an arbitrary resolved prefix), target link ../B/b.md. -/
theorem c4_paths (p : List String) :
    pathParts (normSlash "../B/b.md") = ["..", "B", "b.md"] ∧
    resolvePath ((p ++ ["A"]) ++ ["..", "B", "b.md"]) = resolvePath p ++ ["B", "b.md"] ∧
    (resolvePath p ++ ["B", "b.md"]).dropLast = resolvePath p ++ ["B"] ∧
    pathName (resolvePath p ++ ["B", "b.md"]) = "b.md" ∧
    resolvePath ((p ++ ["A"]) ++ pathParts "a.md") = resolvePath p ++ ["A", "a.md"] ∧
    pathAsPosix (relpath (resolvePath p ++ ["A", "a.md"]) (resolvePath p ++ ["B"])) =
      "../A/a.md" := by
  refine ⟨by decide, ?_, ?_, ?_, ?_, ?_⟩
  · have hsplit : (p ++ ["A"]) ++ ["..", "B", "b.md"] =
        (((p ++ ["A"]) ++ [".."]) ++ ["B"]) ++ ["b.md"] := by simp
    rw [hsplit]
    rw [resolvePath_push _ "b.md" (by decide) (by decide)]
    rw [resolvePath_push _ "B" (by decide) (by decide)]
    rw [resolvePath_pop]
    rw [resolvePath_push _ "A" (by decide) (by decide)]
    rw [List.dropLast_concat]
    simp
  · have hsplit : resolvePath p ++ ["B", "b.md"] = (resolvePath p ++ ["B"]) ++ ["b.md"] := by
      simp
    rw [hsplit, List.dropLast_concat]
  · unfold pathName
    have hsplit : resolvePath p ++ ["B", "b.md"] = (resolvePath p ++ ["B"]) ++ ["b.md"] := by
      simp
    rw [hsplit, List.getLast?_concat]
    rfl
  · have hpp : pathParts "a.md" = ["a.md"] := by decide
    rw [hpp]
    rw [resolvePath_push _ "a.md" (by decide) (by decide)]
    rw [resolvePath_push _ "A" (by decide) (by decide)]
    simp
  · have hc : commonPrefixLen (resolvePath p ++ ["A", "a.md"]) (resolvePath p ++ ["B"]) =
        (resolvePath p).length := by
      rw [commonPrefixLen_same]
      have h0 : commonPrefixLen ["A", "a.md"] ["B"] = 0 := by decide
      rw [h0]
      omega
    unfold relpath
    dsimp only
    rw [hc, List.length_append]
    rw [show (resolvePath p).length + (["B"] : List String).length - (resolvePath p).length = 1
      from by simp]
    rw [List.drop_left]
    decide

/-- check_bidirectional in claim C4's scenario, when the target directory's
links.yaml declares the reverse entry: PASS. -/
theorem c4_bidi_pass (p : List String) (loadY : List String → Option LinksYaml)
    (att : Option (List AllowedTargetRule)) (rl : Option (List (String × List String)))
    (hl : loadY (resolvePath p ++ ["B"]) =
      some { allowed_targets := att,
             established_links := some [("b.md", ["../A/a.md"])], required_links := rl }) :
    check_bidirectional loadY "../B/b.md" "a.md" (p ++ ["A"]) =
      ("PASS", "Bidirectional link confirmed") := by
  obtain ⟨e0, e1, e2, e3, e4, e5⟩ := c4_paths p
  unfold check_bidirectional
  rw [e0]
  dsimp only
  rw [e1, e2, hl]
  dsimp only
  rw [e3, e4, e5]
  rw [if_pos (by decide)]

/-- check_bidirectional in claim C4's scenario, when the target directory's
links.yaml exists but lacks the reverse entry: FAIL. -/
theorem c4_bidi_fail (p : List String) (loadY : List String → Option LinksYaml)
    (att : Option (List AllowedTargetRule)) (rl : Option (List (String × List String)))
    (est2 : List (String × List String))
    (hl : loadY (resolvePath p ++ ["B"]) =
      some { allowed_targets := att, established_links := some est2, required_links := rl })
    (hno : "../A/a.md" ∉ ((est2.lookup "b.md").getD []).map (fun s =>
      pathAsPosix (normSlash s))) :
    (check_bidirectional loadY "../B/b.md" "a.md" (p ++ ["A"])).1 = "FAIL" := by
  obtain ⟨e0, e1, e2, e3, e4, e5⟩ := c4_paths p
  unfold check_bidirectional
  rw [e0]
  dsimp only
  rw [e1, e2, hl]
  dsimp only
  rw [e3, e4, e5]
  rw [if_neg ?hne]
  case hne =>
    intro hcon
    exact hno (by simpa using hcon)

/-- check_bidirectional in claim C4's scenario, when the target directory has
no links.yaml: INFO. -/
theorem c4_bidi_info (p : List String) (loadY : List String → Option LinksYaml)
    (hl : loadY (resolvePath p ++ ["B"]) = none) :
    (check_bidirectional loadY "../B/b.md" "a.md" (p ++ ["A"])).1 = "INFO" := by
  obtain ⟨e0, e1, e2, e3, e4, e5⟩ := c4_paths p
  unfold check_bidirectional
  rw [e0]
  dsimp only
  rw [e1, e2, hl]

/-- perform_edge_check when the target file exists: the allowed result depends
only on the rules, the existence result is PASS, and the bidirectional check
runs. -/
theorem perform_edge_check_exists (loadY : List String → Option LinksYaml)
    (fileEx : List String → Bool) (dir : List String) (rules : List AllowedTargetRule)
    (sf tl : String) (hex : fileEx (dir ++ pathParts (normSlash tl)) = true) :
    perform_edge_check loadY fileEx dir rules sf tl =
      { allowedRes := if !(check_allowed_target tl dir rules) then
            (("FAIL", "Link does not match any rule.") : String × String)
          else ("PASS", ""),
        existsRes := ("PASS", ""),
        bidiRes := check_bidirectional loadY tl sf dir,
        errFlag :=
          ((if !(check_allowed_target tl dir rules) then
              (("FAIL", "Link does not match any rule.") : String × String)
            else ("PASS", "")).1 == "FAIL")
          || ((check_bidirectional loadY tl sf dir).1 == "FAIL") } := by
  unfold perform_edge_check
  dsimp only
  rw [hex]
  simp

/-- Claim C4: for documents A/a.md and B/b.md linked by A's LinkSpec, with the
target file present: if B's LinkSpec declares the normalized reverse path the
bidirectional check PASSes; if B's LinkSpec exists but lacks the reverse entry
it FAILs while the allowed-target and existence results are unchanged; if B has
no LinkSpec the check is INFO and contributes nothing to the error exit flag
(the flag is then exactly the allowed-check's failure). -/
theorem claim_C4 (p : List String) (loadY1 loadY2 loadY3 : List String → Option LinksYaml)
    (fileEx : List String → Bool) (rules : List AllowedTargetRule)
    (att1 att2 : Option (List AllowedTargetRule))
    (rl1 rl2 : Option (List (String × List String)))
    (est2 : List (String × List String))
    (h1 : loadY1 (resolvePath p ++ ["B"]) =
      some { allowed_targets := att1, established_links := some [("b.md", ["../A/a.md"])],
             required_links := rl1 })
    (h2 : loadY2 (resolvePath p ++ ["B"]) =
      some { allowed_targets := att2, established_links := some est2,
             required_links := rl2 })
    (h2b : "../A/a.md" ∉ ((est2.lookup "b.md").getD []).map (fun s =>
      pathAsPosix (normSlash s)))
    (h3 : loadY3 (resolvePath p ++ ["B"]) = none)
    (hex : fileEx ((p ++ ["A"]) ++ pathParts (normSlash "../B/b.md")) = true) :
    (perform_edge_check loadY1 fileEx (p ++ ["A"]) rules "a.md" "../B/b.md").bidiRes =
      ("PASS", "Bidirectional link confirmed") ∧
    (perform_edge_check loadY2 fileEx (p ++ ["A"]) rules "a.md" "../B/b.md").bidiRes.1 =
      "FAIL" ∧
    (perform_edge_check loadY2 fileEx (p ++ ["A"]) rules "a.md" "../B/b.md").allowedRes =
      (perform_edge_check loadY1 fileEx (p ++ ["A"]) rules "a.md" "../B/b.md").allowedRes ∧
    (perform_edge_check loadY2 fileEx (p ++ ["A"]) rules "a.md" "../B/b.md").existsRes =
      (perform_edge_check loadY1 fileEx (p ++ ["A"]) rules "a.md" "../B/b.md").existsRes ∧
    (perform_edge_check loadY1 fileEx (p ++ ["A"]) rules "a.md" "../B/b.md").existsRes =
      ("PASS", "") ∧
    (perform_edge_check loadY3 fileEx (p ++ ["A"]) rules "a.md" "../B/b.md").bidiRes.1 =
      "INFO" ∧
    (perform_edge_check loadY3 fileEx (p ++ ["A"]) rules "a.md" "../B/b.md").errFlag =
      ((perform_edge_check loadY3 fileEx (p ++ ["A"]) rules "a.md" "../B/b.md").allowedRes.1
        == "FAIL") := by
  rw [perform_edge_check_exists loadY1 fileEx _ rules _ _ hex,
    perform_edge_check_exists loadY2 fileEx _ rules _ _ hex,
    perform_edge_check_exists loadY3 fileEx _ rules _ _ hex]
  refine ⟨c4_bidi_pass p loadY1 att1 rl1 h1, ?_, rfl, rfl, rfl, ?_, ?_⟩
  · exact c4_bidi_fail p loadY2 att2 rl2 est2 h2 h2b
  · exact c4_bidi_info p loadY3 h3
  · dsimp only
    rw [show (check_bidirectional loadY3 "../B/b.md" "a.md" (p ++ ["A"])).1 = "INFO" from
      c4_bidi_info p loadY3 h3]
    simp

/-- Witness for claim C4 at concrete inputs (prefix [], concrete loaders and
filesystem). -/
theorem claim_C4_witness :
    (perform_edge_check
        (fun d => if d == ["B"] then
          some { established_links := some [("b.md", ["../A/a.md"])] } else none)
        (fun q => q == ["A", "..", "B", "b.md"]) ["A"] [] "a.md" "../B/b.md").bidiRes =
      ("PASS", "Bidirectional link confirmed") ∧
    (perform_edge_check
        (fun d => if d == ["B"] then
          some { established_links := some [("b.md", [])] } else none)
        (fun q => q == ["A", "..", "B", "b.md"]) ["A"] [] "a.md" "../B/b.md").bidiRes.1 =
      "FAIL" ∧
    (perform_edge_check (fun _ => none)
        (fun q => q == ["A", "..", "B", "b.md"]) ["A"] [] "a.md" "../B/b.md").bidiRes.1 =
      "INFO" := by
  have h := claim_C4 []
    (fun d => if d == ["B"] then
      some { established_links := some [("b.md", ["../A/a.md"])] } else none)
    (fun d => if d == ["B"] then
      some { established_links := some [("b.md", [])] } else none)
    (fun _ => none)
    (fun q => q == ["A", "..", "B", "b.md"]) [] none none none none [("b.md", [])]
    rfl rfl (by decide) rfl (by decide)
  exact ⟨h.1, h.2.1, h.2.2.2.2.2.1⟩

/-- Appending a fresh message keeps a warning list duplicate-free. -/
theorem nodup_snoc (l : List String) (m : String) (hl : l.Nodup) (hm : m ∉ l) :
    (l ++ [m]).Nodup := by
  simp [List.nodup_append, hl, hm]

/-- Every error message produced by the step loop of validate_block starts with
the character I (of "In block starting with ..."). -/
theorem validateBlockGo_err_head (tokens : List Token) (seq : List Step) (swl : Bool)
    (ti0 : Nat) :
    ∀ steps idx ci e, (validateBlockGo tokens seq swl ti0 steps idx ci).2 = some e →
      e.data.head? = some 'I' := by
  intro steps
  induction steps with
  | nil => intro idx ci e h; simp [validateBlockGo] at h
  | cons step rest ih =>
    intro idx ci e h
    simp only [validateBlockGo] at h
    split at h
    · exact ih _ _ _ h
    · dsimp only at h
      rw [Option.some.injEq] at h
      subst h
      simp only [String.data_append, List.append_assoc]
      rfl

/-- Every error message of validate_block starts with the character I. -/
theorem validate_block_err_head (tokens : List Token) (ti : Nat) (block : Block)
    (e : String) (he : (validate_block tokens ti block).2 = some e) :
    e.data.head? = some 'I' := by
  unfold validate_block at he
  dsimp only at he
  exact validateBlockGo_err_head tokens _ _ ti _ 0 ti e he

/-- The interpolated error of the inner-loop diagnostic starts with N (from
"None") or I (from "In block starting with ..."). -/
theorem optStr_head (o : Option String)
    (ho : ∀ e, o = some e → e.data.head? = some 'I') :
    (optStr o).data.head? = some 'N' ∨ (optStr o).data.head? = some 'I' := by
  cases o with
  | none => left; rfl
  | some e => right; exact ho e rfl

/-- An inner-loop diagnostic (starting, after the filename prefix, with "None"
or "In block ...") never equals a post-loop occurrence diagnostic (starting
with "line " there). -/
theorem inner_ne_outer (fname x s : String)
    (hx : x.data.head? = some 'N' ∨ x.data.head? = some 'I') :
    fname ++ ": " ++ x ≠ fname ++ ": line " ++ s := by
  intro h
  have hd := congrArg String.data h
  simp only [String.data_append] at hd
  rw [List.append_assoc, List.append_assoc] at hd
  have hd2 := List.append_cancel_left hd
  simp only [List.cons_append, List.nil_append] at hd2
  injection hd2 with h1 hd3
  injection hd3 with h2 hd4
  rcases hx with hh | hh <;> rw [hd4] at hh <;>
    simp only [List.head?_cons, Option.some.injEq] at hh <;>
    exact absurd hh (by decide)

/-- An early return of the inner matching loop appends exactly one diagnostic,
of the inner form, to the errors or to the warnings of the incoming result. -/
theorem blockLoopGo_ret_shape (fname : String) (tokens : List Token) (block : Block) :
    ∀ fuel ti k res ok res',
      blockLoopGo fname tokens block fuel ti k res = BlockLoopOut.ret ok res' →
      ∃ x, (x.data.head? = some 'N' ∨ x.data.head? = some 'I') ∧
        (res' = { res with errors := res.errors ++ [fname ++ ": " ++ x] } ∨
         res' = { res with warnings := res.warnings ++ [fname ++ ": " ++ x] }) := by
  intro fuel
  induction fuel with
  | zero => intro ti k res ok res' h; rw [blockLoopGo] at h; simp at h
  | succ fuel ih =>
    intro ti k res ok res' h
    simp only [blockLoopGo] at h
    split at h
    · split at h
      · split at h
        · split at h
          · simp at h
          · exact ih _ _ _ _ _ h
        · exact ih _ _ _ _ _ h
      · split at h
        · refine ⟨optStr (validate_block tokens ti block).2, ?_, ?_⟩
          · exact optStr_head _ (fun e he => validate_block_err_head tokens ti block e he)
          · split at h <;> cases h
            · left; rfl
            · right; rfl
        · simp at h
    · simp at h

/-- Structural validation started from a result with no errors and
duplicate-free warnings of the occurrence form produces duplicate-free error
and warning lists. -/
theorem structLoop_nodup (fname : String) (tokens : List Token) :
    ∀ (blocks : List Block) (ti : Nat) (res : ValidationResult),
      res.errors = [] →
      res.warnings.Nodup →
      (∀ w ∈ res.warnings, ∃ s, w = fname ++ ": line " ++ s) →
      (structLoop fname tokens blocks ti res).2.errors.Nodup ∧
      (structLoop fname tokens blocks ti res).2.warnings.Nodup := by
  intro blocks
  induction blocks with
  | nil =>
    intro ti res hE hW hF
    exact ⟨by simp [structLoop, hE], by simpa [structLoop] using hW⟩
  | cons b rest ih =>
    intro ti res hE hW hF
    unfold structLoop processBlock
    cases hbl : blockLoop fname tokens b ti 0 res with
    | ret ok res' =>
      simp only [hbl]
      obtain ⟨x, hx, hcase⟩ := blockLoopGo_ret_shape fname tokens b _ ti 0 res ok res' hbl
      rcases hcase with hres | hres <;> subst hres <;> dsimp only
      · exact ⟨by rw [hE]; simp, hW⟩
      · refine ⟨by rw [hE]; exact List.nodup_nil, ?_⟩
        apply nodup_snoc _ _ hW
        intro hmem
        obtain ⟨s, hs⟩ := hF _ hmem
        exact inner_ne_outer fname x s hx hs
    | cont ti' k res' =>
      have hres : res' = res :=
        (blockLoopGo_cont fname tokens b _ ti 0 res ti' k res' hbl).2.2
      subst hres
      dsimp only
      split <;> rename_i heq
      · split at heq
        · split at heq
          · cases heq
            refine ⟨by dsimp only; rw [hE]; simp, ?_⟩
            exact hW
          · split at heq
            · cases heq
            · cases heq
        · cases heq
      · split at heq
        · split at heq
          · cases heq
          · split at heq
            · rename_i hnf hwarn
              cases heq
              apply ih
              · exact hE
              · exact nodup_snoc _ _ hW hwarn.2
              · intro w hw
                rw [List.mem_append] at hw
                rcases hw with hw | hw
                · exact hF w hw
                · rw [List.mem_singleton] at hw
                  subst hw
                  exact ⟨_, rfl⟩
            · cases heq
              exact ih _ _ hE hW hF
        · cases heq
          exact ih _ _ hE hW hF


/-- Claim C8 counterexample: validate_links appends the identical
missing-required-link message twice to the same warnings list (no
message-equality elision on the link-check paths). -/
theorem claim_C8_counterexample :
    ¬ (validate_links "doc.md" "doc.md" [] (some c8spec) []
        { filename := "doc.md" }).2.warnings.Nodup := by
  decide

/-- Claim C8 as amended: within one structural validation of a document
(started from a fresh ValidationResult, as validate_file does), no two
identical messages appear in the error list or in the warning list - the
occurrence diagnostics are explicitly guarded by a membership check and an
inner-loop diagnostic is appended at most once, immediately before returning;
the link checks (validate_links) append without any such guard and can emit
duplicate identical warnings. -/
theorem claim_C8_amended :
    ∀ (fname : String) (blocks : List Block) (tokens : List Token) (res : ValidationResult),
      res.errors = [] → res.warnings = [] →
      (validate_structure fname blocks tokens res).2.errors.Nodup ∧
      (validate_structure fname blocks tokens res).2.warnings.Nodup := by
  intro fname blocks tokens res hE hW
  unfold validate_structure
  refine structLoop_nodup fname tokens blocks 0 res hE ?_ ?_
  · rw [hW]; exact List.nodup_nil
  · intro w hw
    rw [hW] at hw
    exact absurd hw (List.not_mem_nil w)

/-- Witness for claim C8's amended statement at a concrete input. -/
theorem claim_C8_witness :
    (validate_structure "f.md" [c1warnBlock, c1fatalBlock] c1tokens
        { filename := "f.md" }).2.errors.Nodup ∧
    (validate_structure "f.md" [c1warnBlock, c1fatalBlock] c1tokens
        { filename := "f.md" }).2.warnings.Nodup :=
  claim_C8_amended "f.md" [c1warnBlock, c1fatalBlock] c1tokens { filename := "f.md" } rfl rfl
